import Mathlib

/-!
Verification of `src/test-app/extensions/discount-function/src/cart_lines_discounts_generate_run.rs`.

The Rust function `cart_lines_discounts_generate_run` is a pure transform from a
cart plus a discount configuration to a list of discount operations (or an
error).  We embed it shallowly: machine floats (`f64`) are modelled by `F64`
below (NaN, signed infinities, and exact rational values — IEEE rounding is not
modelled; every numeric value exercised by the theorems is exactly
representable), strings are Lean `String`s, and the fallible function returns
`Except String _`.
-/

set_option maxRecDepth 20000
set_option exponentiation.threshold 2000

deriving instance DecidableEq for Except

/-- Model of a Rust `f64` value: NaN, an infinity (the `Bool` is `true` for the
negative one), or a finite value carried as an exact rational. -/
inductive F64 where
  | nan : F64
  | inf : Bool → F64
  | finite : ℚ → F64
deriving DecidableEq

/-- Largest finite `f64`, `(2^53 - 1) * 2^971 = (2 - 2^-52) * 2^1023`. -/
def maxFiniteF64 : ℚ := (((2 ^ 53 - 1) * 2 ^ 971 : ℕ) : ℚ)

/-- Model of `PartialOrd::partial_cmp` on `f64`: `None` whenever either side is
NaN, otherwise the total order on `-inf < finite values < inf` (the model has a
single zero, so the IEEE `-0.0 == 0.0` case collapses). -/
def F64.pcmp : F64 → F64 → Option Ordering
  | .nan, _ => none
  | _, .nan => none
  | .inf a, .inf b =>
      some (if a = b then Ordering.eq else if a then Ordering.lt else Ordering.gt)
  | .inf a, .finite _ => some (if a then Ordering.lt else Ordering.gt)
  | .finite _, .inf b => some (if b then Ordering.gt else Ordering.lt)
  | .finite a, .finite b =>
      some (if a < b then Ordering.lt else if b < a then Ordering.gt else Ordering.eq)

/-- Model of `x * 2.0` on `f64`.  Doubling a finite double is exact unless the
exponent overflows, in which case IEEE round-to-nearest yields an infinity;
`2 * NaN = NaN` and `2 * ±inf = ±inf`. -/
def F64.mulTwo : F64 → F64
  | .nan => .nan
  | .inf s => .inf s
  | .finite q =>
      if maxFiniteF64 < 2 * q then .inf false
      else if 2 * q < -maxFiniteF64 then .inf true
      else .finite (2 * q)

/-- Fuel-based multiplicity counter: `countFactorGo p fuel n` counts how many
times `p` divides `n`, structurally on `fuel`. -/
def countFactorGo (p : Nat) : Nat → Nat → Nat
  | 0, _ => 0
  | fuel + 1, n =>
      if 2 ≤ p ∧ 0 < n ∧ n % p = 0 then countFactorGo p fuel (n / p) + 1 else 0

/-- Multiplicity of the prime `p` in `n` (fuel `n` suffices since `n / p < n`). -/
def countFactor (p n : Nat) : Nat := countFactorGo p n n

/-- Render a rational number the way Rust's `Display` for `f64` renders the
corresponding double: minimal terminating decimal expansion, no trailing zeros,
no decimal point for integral values (`15` not `15.0`), leading `-` for
negatives.  Every value reaching this function through `parseF64` has a
denominator of the form `2^a * 5^b`; other denominators (unreachable from
the program) fall back to a fraction rendering. -/
def qDisplay (q : ℚ) : String :=
  let a := countFactor 2 q.den
  let b := countFactor 5 q.den
  let k := max a b
  if q.den = 2 ^ a * 5 ^ b then
    let n : Int := (q * ((10 ^ k : ℕ) : ℚ)).num
    let cs0 := (toString n.natAbs).toList
    let cs := if cs0.length ≤ k then List.replicate (k + 1 - cs0.length) '0' ++ cs0 else cs0
    let ip := cs.take (cs.length - k)
    let fp := ((cs.drop (cs.length - k)).reverse.dropWhile (fun c => c == '0')).reverse
    (if q < 0 then "-" else "") ++ String.mk ip
      ++ (if fp.isEmpty then "" else "." ++ String.mk fp)
  else
    toString q.num ++ "/" ++ toString q.den

/-- Model of Rust `Display` for `f64` (as used by `format!("{}")`): `NaN`,
`inf`/`-inf`, or the shortest decimal rendering of a finite value. -/
def F64.display : F64 → String
  | .nan => "NaN"
  | .inf s => if s then "-inf" else "inf"
  | .finite q => qDisplay q

/-- Split a character list into the groups between occurrences of a dot. -/
def splitDot : List Char → List (List Char)
  | [] => [[]]
  | c :: rest =>
      match splitDot rest with
      | [] => [[]]
      | g :: gs => if c = '.' then [] :: g :: gs else (c :: g) :: gs

/-- Numeric value of a list of decimal digit characters. -/
def digitsVal (cs : List Char) : Nat :=
  cs.foldl (fun n c => n * 10 + (c.toNat - '0'.toNat)) 0

/-- Check that every character is a decimal digit. -/
def allDigits (cs : List Char) : Bool := cs.all (fun c => c.isDigit)

/-- Parse the mantissa of a float literal: `Digit+ ('.' Digit*)? | '.' Digit+`
(at least one digit overall, at most one dot). -/
def parseMantissa (cs : List Char) : Option ℚ :=
  match splitDot cs with
  | [ip] => if ip.isEmpty || !allDigits ip then none else some ((digitsVal ip : ℕ) : ℚ)
  | [ip, fp] =>
      if (ip.isEmpty && fp.isEmpty) || !allDigits ip || !allDigits fp then none
      else some (((digitsVal ip : ℕ) : ℚ)
        + ((digitsVal fp : ℕ) : ℚ) / ((10 ^ fp.length : ℕ) : ℚ))
  | _ => none

/-- Split a character list at the first exponent marker `e`/`E`, if any. -/
def splitExpMark : List Char → List Char × Option (List Char)
  | [] => ([], none)
  | c :: rest =>
      if c = 'e' ∨ c = 'E' then ([], some rest)
      else
        match splitExpMark rest with
        | (m, e) => (c :: m, e)

/-- Parse an exponent: optional sign followed by at least one digit. -/
def parseExpVal (cs : List Char) : Option Int :=
  match cs with
  | '+' :: r => if r.isEmpty || !allDigits r then none else some (Int.ofNat (digitsVal r))
  | '-' :: r => if r.isEmpty || !allDigits r then none else some (-(Int.ofNat (digitsVal r)))
  | r => if r.isEmpty || !allDigits r then none else some (Int.ofNat (digitsVal r))

/-- Multiply a rational by `10^e` for a (possibly negative) integer `e`. -/
def scalePow10 (q : ℚ) (e : Int) : ℚ :=
  match e with
  | Int.ofNat n => q * ((10 ^ n : ℕ) : ℚ)
  | Int.negSucc n => q / ((10 ^ (n + 1) : ℕ) : ℚ)

/-- Parse an unsigned float literal `Mantissa Exp?`. -/
def parseNumber (cs : List Char) : Option ℚ :=
  match splitExpMark cs with
  | (m, none) => parseMantissa m
  | (m, some e) =>
      match parseMantissa m, parseExpVal e with
      | some q, some k => some (scalePow10 q k)
      | _, _ => none

/-- Model of Rust `str::parse::<f64>` per the grammar of `f64::from_str`:
`Sign? ('inf' | 'infinity' | 'nan' | Number)` with case-insensitive keywords,
`Number ::= Digit+ '.'? Digit* Exp? | '.' Digit+ Exp?`,
`Exp ::= ('e' | 'E') Sign? Digit+`, matching the whole string.  The model keeps
the exact rational value of the literal; IEEE rounding to the nearest double
and overflow of huge finite literals to infinity are not modelled (the claims
only exercise exactly representable values). -/
def parseF64 (s : String) : Option F64 :=
  let cs := s.toList
  let sgn : Bool × List Char :=
    match cs with
    | '+' :: r => (false, r)
    | '-' :: r => (true, r)
    | r => (false, r)
  let neg := sgn.1
  let body := sgn.2
  let low := body.map Char.toLower
  if low = "inf".toList ∨ low = "infinity".toList then some (F64.inf neg)
  else if low = "nan".toList then some F64.nan
  else (parseNumber body).map fun q => F64.finite (if neg then -q else q)

/-- Discount class tags from the generated schema; the function only inspects
`order` and `product`. -/
inductive DiscountClass where
  | order : DiscountClass
  | product : DiscountClass
  | shipping : DiscountClass
deriving DecidableEq

/-- Monetary value; `amount` is the `Decimal` (an `f64` on the wire). -/
structure MoneyV2 where
  amount : F64
deriving DecidableEq

/-- Cost block of a cart line; only `subtotal_amount` is read. -/
structure CartLineCost where
  subtotal_amount : MoneyV2
deriving DecidableEq

/-- One cart line: identifier, quantity and cost. -/
structure CartLine where
  id : String
  quantity : Int
  cost : CartLineCost
deriving DecidableEq

/-- The cart: an ordered sequence of lines. -/
structure Cart where
  lines : List CartLine
deriving DecidableEq

/-- The configuration metafield; `value` is a free-form string. -/
structure Metafield where
  value : String
deriving DecidableEq

/-- The discount configuration: active classes and the optional metafield. -/
structure Discount where
  discount_classes : List DiscountClass
  metafield : Option Metafield
deriving DecidableEq

/-- The input record of `cart_lines_discounts_generate_run`. -/
structure Input where
  cart : Cart
  discount : Discount
deriving DecidableEq

/-- Selection strategy for order discounts; the function only emits `first`. -/
inductive OrderDiscountSelectionStrategy where
  | first : OrderDiscountSelectionStrategy
  | maximum : OrderDiscountSelectionStrategy
deriving DecidableEq

/-- Target covering the whole order subtotal, minus excluded lines. -/
structure OrderSubtotalTarget where
  excluded_cart_line_ids : List String
deriving DecidableEq

/-- Target of an order discount candidate (only the subtotal variant is used). -/
inductive OrderDiscountCandidateTarget where
  | orderSubtotal : OrderSubtotalTarget → OrderDiscountCandidateTarget
deriving DecidableEq

/-- A percentage wrapper around a `Decimal` (`f64`) value. -/
structure Percentage where
  value : F64
deriving DecidableEq

/-- Value of an order discount candidate (only the percentage variant is used). -/
inductive OrderDiscountCandidateValue where
  | percentage : Percentage → OrderDiscountCandidateValue
deriving DecidableEq

/-- An order discount candidate.  The `conditions` and
`associated_discount_code` payload types are never constructed by the function
(it always passes `None`), so they are modelled with a `Unit` payload. -/
structure OrderDiscountCandidate where
  targets : List OrderDiscountCandidateTarget
  message : Option String
  value : OrderDiscountCandidateValue
  conditions : Option Unit
  associated_discount_code : Option Unit
deriving DecidableEq

/-- Payload of `CartOperation::OrderDiscountsAdd`. -/
structure OrderDiscountsAddOperation where
  selection_strategy : OrderDiscountSelectionStrategy
  candidates : List OrderDiscountCandidate
deriving DecidableEq

/-- Target naming one cart line, with an optional quantity restriction. -/
structure CartLineTarget where
  id : String
  quantity : Option Int
deriving DecidableEq

/-- Target of a product discount candidate (only the cart-line variant is used). -/
inductive ProductDiscountCandidateTarget where
  | cartLine : CartLineTarget → ProductDiscountCandidateTarget
deriving DecidableEq

/-- Value of a product discount candidate (only the percentage variant is used). -/
inductive ProductDiscountCandidateValue where
  | percentage : Percentage → ProductDiscountCandidateValue
deriving DecidableEq

/-- A product discount candidate; `associated_discount_code` is always `None`
in this program, so its payload is modelled with `Unit`. -/
structure ProductDiscountCandidate where
  targets : List ProductDiscountCandidateTarget
  message : Option String
  value : ProductDiscountCandidateValue
  associated_discount_code : Option Unit
deriving DecidableEq

/-- Selection strategy for product discounts; the function only emits `first`. -/
inductive ProductDiscountSelectionStrategy where
  | first : ProductDiscountSelectionStrategy
  | all : ProductDiscountSelectionStrategy
deriving DecidableEq

/-- Payload of `CartOperation::ProductDiscountsAdd`. -/
structure ProductDiscountsAddOperation where
  selection_strategy : ProductDiscountSelectionStrategy
  candidates : List ProductDiscountCandidate
deriving DecidableEq

/-- A cart operation: the two variants this function can emit. -/
inductive CartOperation where
  | orderDiscountsAdd : OrderDiscountsAddOperation → CartOperation
  | productDiscountsAdd : ProductDiscountsAddOperation → CartOperation
deriving DecidableEq

/-- The success payload of the function: an ordered list of operations. -/
structure CartLinesDiscountsGenerateRunResult where
  operations : List CartOperation
deriving DecidableEq

/-- Model of Rust `Iterator::max_by`: a left fold with `cmp::max_by`, which
returns its second argument when the comparison is `Equal` or `Less`.  Hence on
several equally maximum elements the LAST one is kept, and `None` is returned
only for the empty list. -/
def maxBy {α : Type} (cmp : α → α → Ordering) : List α → Option α
  | [] => none
  | x :: xs => some (xs.foldl (fun acc y => if cmp acc y = Ordering.gt then acc else y) x)

/-- The chain `a.cost().subtotal_amount().amount()` read by the comparator. -/
def subtotalOf (l : CartLine) : F64 := l.cost.subtotal_amount.amount

/-- The comparator passed to `max_by` in the source: `partial_cmp` of the
subtotal amounts with `unwrap_or(Ordering::Equal)`. -/
def cmpBySubtotal (a b : CartLine) : Ordering :=
  (F64.pcmp (subtotalOf a) (subtotalOf b)).getD Ordering.eq

/-- The `discount_percentage` local of the source: the metafield value parsed
as `f64` when that succeeds, `10.0` otherwise. -/
def discountPercentage (input : Input) : F64 :=
  (input.discount.metafield.bind fun m => parseF64 m.value).getD (F64.finite 10)

/-- The order operation pushed by the source when the `Order` class is active. -/
def orderDiscountsAddOp (p : F64) : CartOperation :=
  CartOperation.orderDiscountsAdd
    { selection_strategy := OrderDiscountSelectionStrategy.first
      candidates := [
        { targets := [OrderDiscountCandidateTarget.orderSubtotal
            { excluded_cart_line_ids := [] }]
          message := some (F64.display p ++ "% OFF ORDER")
          value := OrderDiscountCandidateValue.percentage { value := p }
          conditions := none
          associated_discount_code := none }] }

/-- The product operation pushed by the source when the `Product` class is
active; `p` is the base percentage and `maxCartLine` the line chosen by
`max_by`. -/
def productDiscountsAddOp (p : F64) (maxCartLine : CartLine) : CartOperation :=
  CartOperation.productDiscountsAdd
    { selection_strategy := ProductDiscountSelectionStrategy.first
      candidates := [
        { targets := [ProductDiscountCandidateTarget.cartLine
            { id := maxCartLine.id, quantity := none }]
          message := some (F64.display (F64.mulTwo p) ++ "% OFF PRODUCT")
          value := ProductDiscountCandidateValue.percentage { value := F64.mulTwo p }
          associated_discount_code := none }] }

/-- Shallow embedding of the Rust function `cart_lines_discounts_generate_run`:
pick the maximum-subtotal line (error on an empty cart), check which discount
classes are active, return no operations when neither is, otherwise read the
percentage override and push the order and/or product operation. -/
def cart_lines_discounts_generate_run (input : Input) :
    Except String CartLinesDiscountsGenerateRunResult :=
  match maxBy cmpBySubtotal input.cart.lines with
  | none => Except.error "No cart lines found"
  | some maxCartLine =>
      let hasOrder := input.discount.discount_classes.contains DiscountClass.order
      let hasProduct := input.discount.discount_classes.contains DiscountClass.product
      if !hasOrder && !hasProduct then
        Except.ok { operations := [] }
      else
        let p := discountPercentage input
        Except.ok { operations :=
          (if hasOrder then [orderDiscountsAddOp p] else [])
            ++ (if hasProduct then [productDiscountsAddOp p maxCartLine] else []) }

/-- Concrete cart line used by witnesses and examples. -/
def exLine (i : String) (a : F64) : CartLine :=
  { id := i, quantity := 1, cost := { subtotal_amount := { amount := a } } }

/-- Concrete input record used by witnesses and examples. -/
def exInput (ls : List CartLine) (cls : List DiscountClass) (mf : Option Metafield) : Input :=
  { cart := { lines := ls }, discount := { discount_classes := cls, metafield := mf } }

/-- `max_by` returns a value exactly on non-empty lists. -/
theorem maxBy_ne_nil {α : Type} (cmp : α → α → Ordering) (xs : List α) (h : xs ≠ []) :
    ∃ m, maxBy cmp xs = some m := by
  cases xs with
  | nil => exact absurd rfl h
  | cons x t => exact ⟨_, rfl⟩

/-- Closed form of the function on a cart whose `max_by` pick is `m`: the
result is the concatenation of the optional order operation and the optional
product operation (both empty when neither class is active). -/
theorem run_spec (input : Input) (m : CartLine)
    (h : maxBy cmpBySubtotal input.cart.lines = some m) :
    cart_lines_discounts_generate_run input =
      Except.ok { operations :=
        (if input.discount.discount_classes.contains DiscountClass.order
          then [orderDiscountsAddOp (discountPercentage input)] else [])
        ++ (if input.discount.discount_classes.contains DiscountClass.product
          then [productDiscountsAddOp (discountPercentage input) m] else []) } := by
  unfold cart_lines_discounts_generate_run
  rw [h]
  cases ho : input.discount.discount_classes.contains DiscountClass.order <;>
    cases hp : input.discount.discount_classes.contains DiscountClass.product <;>
      simp [ho, hp]

/-- C3: for every input whose cart has no line items, the function returns the
error "No cart lines found", regardless of the discount class configuration. -/
theorem empty_cart_error (input : Input) (h : input.cart.lines = []) :
    cart_lines_discounts_generate_run input = Except.error "No cart lines found" := by
  unfold cart_lines_discounts_generate_run
  rw [h]
  rfl

/-- Witness for C3: the empty cart errs even with no active class at all. -/
theorem empty_cart_error_witness :
    cart_lines_discounts_generate_run (exInput [] [DiscountClass.shipping] none) =
      Except.error "No cart lines found" :=
  empty_cart_error (exInput [] [DiscountClass.shipping] none) rfl

/-- C4: for every non-empty cart with neither `Order` nor `Product` active, the
function succeeds with an empty operation list, whatever the override value. -/
theorem no_active_classes_empty_result (input : Input)
    (h1 : input.cart.lines ≠ [])
    (h2 : input.discount.discount_classes.contains DiscountClass.order = false)
    (h3 : input.discount.discount_classes.contains DiscountClass.product = false) :
    cart_lines_discounts_generate_run input = Except.ok { operations := [] } := by
  obtain ⟨m, hm⟩ := maxBy_ne_nil cmpBySubtotal input.cart.lines h1
  rw [run_spec input m hm, h2, h3]
  simp

/-- Witness for C4: shipping-only configuration with an override present. -/
theorem no_active_classes_empty_result_witness :
    cart_lines_discounts_generate_run
      (exInput [exLine "A" (F64.finite 5)] [DiscountClass.shipping] (some { value := "99" })) =
      Except.ok { operations := [] } :=
  no_active_classes_empty_result
    (exInput [exLine "A" (F64.finite 5)] [DiscountClass.shipping] (some { value := "99" }))
    (by decide) (by decide) (by decide)

/-- C1: for every non-empty cart whose configuration contains the `Order`
class, the result contains an order-discount-add operation with selection
strategy First, one candidate, one order-subtotal target with no excluded
lines, percentage `discountPercentage input` (the parsed override or the 10.0
default) and message "<percentage>% OFF ORDER". -/
theorem order_discount_op (input : Input)
    (h1 : input.cart.lines ≠ [])
    (h2 : input.discount.discount_classes.contains DiscountClass.order = true) :
    ∃ r, cart_lines_discounts_generate_run input = Except.ok r ∧
      CartOperation.orderDiscountsAdd
        { selection_strategy := OrderDiscountSelectionStrategy.first
          candidates := [
            { targets := [OrderDiscountCandidateTarget.orderSubtotal
                { excluded_cart_line_ids := [] }]
              message := some (F64.display (discountPercentage input) ++ "% OFF ORDER")
              value := OrderDiscountCandidateValue.percentage
                { value := discountPercentage input }
              conditions := none
              associated_discount_code := none }] } ∈ r.operations := by
  obtain ⟨m, hm⟩ := maxBy_ne_nil cmpBySubtotal input.cart.lines h1
  refine ⟨_, run_spec input m hm, ?_⟩
  rw [h2]
  simp [orderDiscountsAddOp]

/-- Concrete input for the C1 witness: one line, `Order` only, no override. -/
def exInp1 : Input := exInput [exLine "A" (F64.finite 5)] [DiscountClass.order] none

/-- Witness for C1 at a one-line cart with only `Order` active and no
override. -/
theorem order_discount_op_witness :
    ∃ r, cart_lines_discounts_generate_run exInp1 = Except.ok r ∧
      CartOperation.orderDiscountsAdd
        { selection_strategy := OrderDiscountSelectionStrategy.first
          candidates := [
            { targets := [OrderDiscountCandidateTarget.orderSubtotal
                { excluded_cart_line_ids := [] }]
              message := some (F64.display (discountPercentage exInp1) ++ "% OFF ORDER")
              value := OrderDiscountCandidateValue.percentage
                { value := discountPercentage exInp1 }
              conditions := none
              associated_discount_code := none }] } ∈ r.operations :=
  order_discount_op exInp1 (by decide) (by decide)

/-- C2: for every non-empty cart whose configuration contains the `Product`
class, the result contains a product-discount-add operation with selection
strategy First, one candidate, one cart-line target naming the `max_by` pick
(no quantity restriction), percentage twice the base percentage and message
"<doubled percentage>% OFF PRODUCT". -/
theorem product_discount_op (input : Input)
    (h1 : input.cart.lines ≠ [])
    (h2 : input.discount.discount_classes.contains DiscountClass.product = true) :
    ∃ r m, maxBy cmpBySubtotal input.cart.lines = some m ∧
      cart_lines_discounts_generate_run input = Except.ok r ∧
      CartOperation.productDiscountsAdd
        { selection_strategy := ProductDiscountSelectionStrategy.first
          candidates := [
            { targets := [ProductDiscountCandidateTarget.cartLine
                { id := m.id, quantity := none }]
              message := some (F64.display (F64.mulTwo (discountPercentage input))
                ++ "% OFF PRODUCT")
              value := ProductDiscountCandidateValue.percentage
                { value := F64.mulTwo (discountPercentage input) }
              associated_discount_code := none }] } ∈ r.operations := by
  obtain ⟨m, hm⟩ := maxBy_ne_nil cmpBySubtotal input.cart.lines h1
  refine ⟨_, m, hm, run_spec input m hm, ?_⟩
  rw [h2]
  simp [productDiscountsAddOp]

/-- Concrete input for the C2 witness: two lines, `Product` only, no
override. -/
def exInp2 : Input :=
  exInput [exLine "A" (F64.finite 5), exLine "B" (F64.finite 20)] [DiscountClass.product] none

/-- Witness for C2 at a two-line cart with only `Product` active and no
override. -/
theorem product_discount_op_witness :
    ∃ r m, maxBy cmpBySubtotal exInp2.cart.lines = some m ∧
      cart_lines_discounts_generate_run exInp2 = Except.ok r ∧
      CartOperation.productDiscountsAdd
        { selection_strategy := ProductDiscountSelectionStrategy.first
          candidates := [
            { targets := [ProductDiscountCandidateTarget.cartLine
                { id := m.id, quantity := none }]
              message := some (F64.display (F64.mulTwo (discountPercentage exInp2))
                ++ "% OFF PRODUCT")
              value := ProductDiscountCandidateValue.percentage
                { value := F64.mulTwo (discountPercentage exInp2) }
              associated_discount_code := none }] } ∈ r.operations :=
  product_discount_op exInp2 (by decide) (by decide)

/-- Replace the metafield of an input (used to compare configurations). -/
def withMetafield (input : Input) (mf : Option Metafield) : Input :=
  { input with discount := { input.discount with metafield := mf } }

/-- Replace the active class list of an input (used to compare configurations). -/
def withClasses (input : Input) (cls : List DiscountClass) : Input :=
  { input with discount := { input.discount with discount_classes := cls } }

/-- The function reads its input only through the cart lines, the two class
membership tests and the parsed percentage. -/
theorem run_congr (i j : Input)
    (hc : i.cart.lines = j.cart.lines)
    (ho : i.discount.discount_classes = j.discount.discount_classes)
    (hp : discountPercentage i = discountPercentage j) :
    cart_lines_discounts_generate_run i = cart_lines_discounts_generate_run j := by
  unfold cart_lines_discounts_generate_run
  rw [hc, ho, hp]

/-- C5: the base percentage is the metafield value parsed as a float when that
parse succeeds and 10.0 when the metafield is absent or unparsable, and an
input with an unparsable override runs to exactly the same result as the same
input with no metafield at all. -/
theorem percentage_parse_fallback :
    (∀ (input : Input) (x : F64),
        (input.discount.metafield.bind fun m => parseF64 m.value) = some x →
        discountPercentage input = x)
    ∧ (∀ input : Input,
        (input.discount.metafield.bind fun m => parseF64 m.value) = none →
        discountPercentage input = F64.finite 10)
    ∧ (∀ (input : Input) (m : Metafield),
        input.discount.metafield = some m → parseF64 m.value = none →
        cart_lines_discounts_generate_run input =
          cart_lines_discounts_generate_run (withMetafield input none)) := by
  refine ⟨?_, ?_, ?_⟩
  · intro input x h
    unfold discountPercentage
    rw [h]
    rfl
  · intro input h
    unfold discountPercentage
    rw [h]
    rfl
  · intro input m hm hp
    refine run_congr input (withMetafield input none) rfl rfl ?_
    unfold discountPercentage withMetafield
    rw [hm]
    simp [hp]

/-- Concrete input for the C5 witness: unparsable override "abc". -/
def exInp5 : Input :=
  exInput [exLine "A" (F64.finite 5)] [DiscountClass.order] (some { value := "abc" })

/-- Witness for C5: the "abc" override runs identically to no override. -/
theorem percentage_parse_fallback_witness :
    cart_lines_discounts_generate_run exInp5 =
      cart_lines_discounts_generate_run (withMetafield exInp5 none) :=
  percentage_parse_fallback.2.2 exInp5 { value := "abc" } rfl (by decide)

/-- C6: on a non-empty cart with both classes active the result is exactly the
two-element list [order operation, product operation], and each element equals
the single operation produced when only that class is active on the otherwise
unchanged input. -/
theorem both_classes_two_ops (input : Input)
    (h1 : input.cart.lines ≠ [])
    (h2 : input.discount.discount_classes.contains DiscountClass.order = true)
    (h3 : input.discount.discount_classes.contains DiscountClass.product = true) :
    ∃ o p, cart_lines_discounts_generate_run input = Except.ok { operations := [o, p] } ∧
      cart_lines_discounts_generate_run (withClasses input [DiscountClass.order]) =
        Except.ok { operations := [o] } ∧
      cart_lines_discounts_generate_run (withClasses input [DiscountClass.product]) =
        Except.ok { operations := [p] } ∧
      (∃ oo, o = CartOperation.orderDiscountsAdd oo) ∧
      (∃ pp, p = CartOperation.productDiscountsAdd pp) := by
  obtain ⟨m, hm⟩ := maxBy_ne_nil cmpBySubtotal input.cart.lines h1
  refine ⟨orderDiscountsAddOp (discountPercentage input),
    productDiscountsAddOp (discountPercentage input) m, ?_, ?_, ?_, ⟨_, rfl⟩, ⟨_, rfl⟩⟩
  · rw [run_spec input m hm, h2, h3]
    simp
  · rw [run_spec (withClasses input [DiscountClass.order]) m hm]
    simp [withClasses, discountPercentage]
  · rw [run_spec (withClasses input [DiscountClass.product]) m hm]
    simp [withClasses, discountPercentage]

/-- Concrete input for the C6 witness: both classes, override "15". -/
def exInp6 : Input :=
  exInput [exLine "A" (F64.finite 5), exLine "B" (F64.finite 20)]
    [DiscountClass.order, DiscountClass.product] (some { value := "15" })

/-- Witness for C6 at a two-line cart with both classes and override "15". -/
theorem both_classes_two_ops_witness :
    ∃ o p, cart_lines_discounts_generate_run exInp6 = Except.ok { operations := [o, p] } ∧
      cart_lines_discounts_generate_run (withClasses exInp6 [DiscountClass.order]) =
        Except.ok { operations := [o] } ∧
      cart_lines_discounts_generate_run (withClasses exInp6 [DiscountClass.product]) =
        Except.ok { operations := [p] } ∧
      (∃ oo, o = CartOperation.orderDiscountsAdd oo) ∧
      (∃ pp, p = CartOperation.productDiscountsAdd pp) :=
  both_classes_two_ops exInp6 (by decide) (by decide) (by decide)

/-- The concrete input of C8: cart [A: subtotal 5.00, B: subtotal 20.00], both
classes active, override value "15". -/
def exInp8 : Input :=
  exInput [exLine "A" (F64.finite 5), exLine "B" (F64.finite 20)]
    [DiscountClass.order, DiscountClass.product] (some { value := "15" })

/-- C8: on the specific cart [A: 5.00, B: 20.00] with classes {Order, Product}
and override "15", the result is exactly an order-discount-add with percentage
15 and message "15% OFF ORDER" followed by a product-discount-add on line B
with percentage 30 and message "30% OFF PRODUCT". -/
theorem example_both_classes_override15 :
    cart_lines_discounts_generate_run exInp8 =
      Except.ok { operations := [
        CartOperation.orderDiscountsAdd
          { selection_strategy := OrderDiscountSelectionStrategy.first
            candidates := [
              { targets := [OrderDiscountCandidateTarget.orderSubtotal
                  { excluded_cart_line_ids := [] }]
                message := some "15% OFF ORDER"
                value := OrderDiscountCandidateValue.percentage { value := F64.finite 15 }
                conditions := none
                associated_discount_code := none }] },
        CartOperation.productDiscountsAdd
          { selection_strategy := ProductDiscountSelectionStrategy.first
            candidates := [
              { targets := [ProductDiscountCandidateTarget.cartLine
                  { id := "B", quantity := none }]
                message := some "30% OFF PRODUCT"
                value := ProductDiscountCandidateValue.percentage { value := F64.finite 30 }
                associated_discount_code := none }] }] } := by
  with_unfolding_all decide

/-- Tag check: is this operation an order-discount-add? -/
def isOrderOp : CartOperation → Bool
  | CartOperation.orderDiscountsAdd _ => true
  | CartOperation.productDiscountsAdd _ => false

/-- Tag check: is this operation a product-discount-add? -/
def isProductOp : CartOperation → Bool
  | CartOperation.orderDiscountsAdd _ => false
  | CartOperation.productDiscountsAdd _ => true

/-- An operation carries exactly one candidate, and that candidate exactly one
target. -/
def singleCandidateSingleTarget : CartOperation → Prop
  | CartOperation.orderDiscountsAdd o =>
      o.candidates.length = 1 ∧ ∀ c ∈ o.candidates, c.targets.length = 1
  | CartOperation.productDiscountsAdd o =>
      o.candidates.length = 1 ∧ ∀ c ∈ o.candidates, c.targets.length = 1

/-- C9: every successful result has at most two operations, at most one of
each kind, and each operation carries exactly one candidate with exactly one
target. -/
theorem result_invariants (input : Input) (r : CartLinesDiscountsGenerateRunResult)
    (h : cart_lines_discounts_generate_run input = Except.ok r) :
    r.operations.length ≤ 2 ∧
    r.operations.countP isOrderOp ≤ 1 ∧
    r.operations.countP isProductOp ≤ 1 ∧
    ∀ op ∈ r.operations, singleCandidateSingleTarget op := by
  cases hls : input.cart.lines with
  | nil =>
      unfold cart_lines_discounts_generate_run at h
      rw [hls] at h
      simp [maxBy] at h
  | cons x t =>
      have hm : maxBy cmpBySubtotal input.cart.lines =
          some (t.foldl (fun acc y => if cmpBySubtotal acc y = Ordering.gt then acc else y) x) := by
        rw [hls]; rfl
      rw [run_spec input _ hm] at h
      rw [Except.ok.injEq] at h
      subst h
      cases ho : input.discount.discount_classes.contains DiscountClass.order <;>
        cases hp : input.discount.discount_classes.contains DiscountClass.product <;>
          simp [ho, hp, orderDiscountsAddOp, productDiscountsAddOp, isOrderOp, isProductOp,
            singleCandidateSingleTarget]

/-- Concrete input for the C9 witness. -/
def exInp9 : Input := exInput [exLine "A" (F64.finite 5)] [DiscountClass.order] none

/-- The result the function produces on `exInp9`. -/
def exRes9 : CartLinesDiscountsGenerateRunResult :=
  { operations := [orderDiscountsAddOp (F64.finite 10)] }

/-- Witness for C9 on a one-line order-only input. -/
theorem result_invariants_witness :
    exRes9.operations.length ≤ 2 ∧
    exRes9.operations.countP isOrderOp ≤ 1 ∧
    exRes9.operations.countP isProductOp ≤ 1 ∧
    ∀ op ∈ exRes9.operations, singleCandidateSingleTarget op :=
  result_invariants exInp9 exRes9 (by with_unfolding_all decide)

/-- C10: the parsed override is not range-validated: whenever the metafield
value parses to `x` (negative, zero, above 100 or infinite included), the
order operation carries exactly `x` as its percentage and in its message, and
the product operation carries the doubling of `x` likewise. -/
theorem override_not_range_validated (input : Input) (x : F64)
    (h1 : input.cart.lines ≠ [])
    (hx : (input.discount.metafield.bind fun m => parseF64 m.value) = some x) :
    (input.discount.discount_classes.contains DiscountClass.order = true →
      ∃ r, cart_lines_discounts_generate_run input = Except.ok r ∧
        CartOperation.orderDiscountsAdd
          { selection_strategy := OrderDiscountSelectionStrategy.first
            candidates := [
              { targets := [OrderDiscountCandidateTarget.orderSubtotal
                  { excluded_cart_line_ids := [] }]
                message := some (F64.display x ++ "% OFF ORDER")
                value := OrderDiscountCandidateValue.percentage { value := x }
                conditions := none
                associated_discount_code := none }] } ∈ r.operations) ∧
    (input.discount.discount_classes.contains DiscountClass.product = true →
      ∃ r m, maxBy cmpBySubtotal input.cart.lines = some m ∧
        cart_lines_discounts_generate_run input = Except.ok r ∧
        CartOperation.productDiscountsAdd
          { selection_strategy := ProductDiscountSelectionStrategy.first
            candidates := [
              { targets := [ProductDiscountCandidateTarget.cartLine
                  { id := m.id, quantity := none }]
                message := some (F64.display (F64.mulTwo x) ++ "% OFF PRODUCT")
                value := ProductDiscountCandidateValue.percentage { value := F64.mulTwo x }
                associated_discount_code := none }] } ∈ r.operations) := by
  have hd : discountPercentage input = x := by
    unfold discountPercentage
    rw [hx]
    rfl
  obtain ⟨m, hm⟩ := maxBy_ne_nil cmpBySubtotal input.cart.lines h1
  constructor
  · intro h2
    refine ⟨_, run_spec input m hm, ?_⟩
    rw [h2, hd]
    simp [orderDiscountsAddOp]
  · intro h2
    refine ⟨_, m, hm, run_spec input m hm, ?_⟩
    rw [h2, hd]
    simp [productDiscountsAddOp]

/-- Concrete input for the C10 witness: a negative override "-5". -/
def exInp10 : Input :=
  exInput [exLine "A" (F64.finite 5)]
    [DiscountClass.order, DiscountClass.product] (some { value := "-5" })

/-- Witness for C10: the negative override -5 flows into the order operation
as is and doubled to -10 into the product operation. -/
theorem override_not_range_validated_witness :
    (exInp10.discount.discount_classes.contains DiscountClass.order = true →
      ∃ r, cart_lines_discounts_generate_run exInp10 = Except.ok r ∧
        CartOperation.orderDiscountsAdd
          { selection_strategy := OrderDiscountSelectionStrategy.first
            candidates := [
              { targets := [OrderDiscountCandidateTarget.orderSubtotal
                  { excluded_cart_line_ids := [] }]
                message := some (F64.display (F64.finite (-5)) ++ "% OFF ORDER")
                value := OrderDiscountCandidateValue.percentage { value := F64.finite (-5) }
                conditions := none
                associated_discount_code := none }] } ∈ r.operations) ∧
    (exInp10.discount.discount_classes.contains DiscountClass.product = true →
      ∃ r m, maxBy cmpBySubtotal exInp10.cart.lines = some m ∧
        cart_lines_discounts_generate_run exInp10 = Except.ok r ∧
        CartOperation.productDiscountsAdd
          { selection_strategy := ProductDiscountSelectionStrategy.first
            candidates := [
              { targets := [ProductDiscountCandidateTarget.cartLine
                  { id := m.id, quantity := none }]
                message := some (F64.display (F64.mulTwo (F64.finite (-5))) ++ "% OFF PRODUCT")
                value := ProductDiscountCandidateValue.percentage
                  { value := F64.mulTwo (F64.finite (-5)) }
                associated_discount_code := none }] } ∈ r.operations) :=
  override_not_range_validated exInp10 (F64.finite (-5)) (by decide)
    (by with_unfolding_all decide)

/-- Modelled from the spec: "Select the line item with the maximum subtotal
amount (ties broken by treating incomparable/NaN comparisons as equal, keeping
the first encountered maximum)".  This keeps the accumulator unless the
candidate compares strictly greater, so the FIRST of several equally maximum
elements survives — to be compared against the source's `max_by`. -/
def firstMaxBy {α : Type} (cmp : α → α → Ordering) : List α → Option α
  | [] => none
  | x :: xs => some (xs.foldl (fun acc y => if cmp acc y = Ordering.lt then y else acc) x)

/-- C7 counterexample: on a cart with two lines of equal subtotal the function
targets the second line (Rust `max_by` returns the last of equally maximum
elements), while the first encountered maximum is the first line, whose id
differs. -/
theorem product_tie_counterexample :
    firstMaxBy cmpBySubtotal [exLine "A" (F64.finite 5), exLine "B" (F64.finite 5)] =
      some (exLine "A" (F64.finite 5)) ∧
    maxBy cmpBySubtotal [exLine "A" (F64.finite 5), exLine "B" (F64.finite 5)] =
      some (exLine "B" (F64.finite 5)) ∧
    cart_lines_discounts_generate_run
        (exInput [exLine "A" (F64.finite 5), exLine "B" (F64.finite 5)]
          [DiscountClass.product] none) =
      Except.ok { operations :=
        [productDiscountsAddOp (F64.finite 10) (exLine "B" (F64.finite 5))] } ∧
    (exLine "A" (F64.finite 5)).id ≠ (exLine "B" (F64.finite 5)).id := by
  with_unfolding_all decide

/-- On finite subtotals the comparator decides strict order of the values. -/
theorem cmpBySubtotal_gt_iff (a b : CartLine) (qa qb : ℚ)
    (ha : subtotalOf a = F64.finite qa) (hb : subtotalOf b = F64.finite qb) :
    cmpBySubtotal a b = Ordering.gt ↔ qb < qa := by
  unfold cmpBySubtotal
  rw [ha, hb]
  simp only [F64.pcmp, Option.getD_some]
  split_ifs with h1 h2
  · simp [lt_asymm h1]
  · simp [h2]
  · simp [h2]

/-- Fold invariant of `max_by` over all-finite keys: the fold result splits the
list as `l1 ++ r :: l2`, is a maximum of the whole list, and everything after
it is strictly smaller — i.e. the LAST maximum is kept. -/
theorem fold_last_max (f : CartLine → ℚ) :
    ∀ (xs : List CartLine) (x r : CartLine),
      (∀ l ∈ x :: xs, subtotalOf l = F64.finite (f l)) →
      r = xs.foldl (fun acc y => if cmpBySubtotal acc y = Ordering.gt then acc else y) x →
      ∃ l1 l2, x :: xs = l1 ++ r :: l2 ∧
        (∀ y ∈ x :: xs, f y ≤ f r) ∧ (∀ y ∈ l2, f y < f r) := by
  intro xs
  induction xs with
  | nil =>
      intro x r hfin hr
      simp only [List.foldl_nil] at hr
      subst hr
      exact ⟨[], [], by simp, by simp, by simp⟩
  | cons y ys ih =>
      intro x r hfin hr
      rw [List.foldl_cons] at hr
      have hx : subtotalOf x = F64.finite (f x) := hfin x (by simp)
      have hy : subtotalOf y = F64.finite (f y) := hfin y (by simp)
      by_cases hc : cmpBySubtotal x y = Ordering.gt
      · rw [if_pos hc] at hr
        have hylt : f y < f x := (cmpBySubtotal_gt_iff x y (f x) (f y) hx hy).mp hc
        have hfin2 : ∀ l ∈ x :: ys, subtotalOf l = F64.finite (f l) := by
          intro l hl
          rcases List.mem_cons.mp hl with h | h
          · subst h; exact hx
          · exact hfin l (by simp [h])
        obtain ⟨l1, l2, hdec, hmax, hstrict⟩ := ih x r hfin2 hr
        cases l1 with
        | nil =>
            simp only [List.nil_append, List.cons.injEq] at hdec
            obtain ⟨hxr, hys⟩ := hdec
            refine ⟨[], y :: l2, by simp [hxr, hys], ?_, ?_⟩
            · intro z hz
              rcases List.mem_cons.mp hz with h | h
              · subst h; exact hmax z (by simp [hxr])
              · rcases List.mem_cons.mp h with h2 | h2
                · subst h2
                  exact le_of_lt (lt_of_lt_of_le hylt (hmax x (by simp)))
                · exact hmax z (by simp [h2])
            · intro z hz
              rcases List.mem_cons.mp hz with h | h
              · subst h
                exact lt_of_lt_of_le hylt (hmax x (by simp))
              · exact hstrict z h
        | cons a l1t =>
            rw [List.cons_append] at hdec
            injection hdec with hxa hys
            refine ⟨x :: y :: l1t, l2, ?_, ?_, hstrict⟩
            · rw [List.cons_append, List.cons_append, ← hys]
            · intro z hz
              rcases List.mem_cons.mp hz with h | h
              · subst h; exact hmax z (by simp)
              · rcases List.mem_cons.mp h with h2 | h2
                · subst h2
                  exact le_of_lt (lt_of_lt_of_le hylt (hmax x (by simp)))
                · exact hmax z (by simp [h2])
      · rw [if_neg hc] at hr
        have hxle : f x ≤ f y :=
          not_lt.mp (fun hlt => hc ((cmpBySubtotal_gt_iff x y (f x) (f y) hx hy).mpr hlt))
        have hfin2 : ∀ l ∈ y :: ys, subtotalOf l = F64.finite (f l) := by
          intro l hl
          exact hfin l (List.mem_cons_of_mem x hl)
        obtain ⟨l1, l2, hdec, hmax, hstrict⟩ := ih y r hfin2 hr
        refine ⟨x :: l1, l2, ?_, ?_, hstrict⟩
        · rw [List.cons_append, ← hdec]
        · intro z hz
          rcases List.mem_cons.mp hz with h | h
          · subst h
            exact le_trans hxle (hmax y (by simp))
          · exact hmax z h

/-- C7 (amended): the line targeted by the product discount is the one kept by
the `max_by` fold with incomparable (NaN) comparisons treated as equal; when
all subtotals are finite that line has the maximum subtotal and is the LAST
line attaining it (everything after it is strictly smaller), not the first. -/
theorem product_targets_last_max (input : Input)
    (h1 : input.cart.lines ≠ [])
    (h2 : input.discount.discount_classes.contains DiscountClass.product = true) :
    ∃ r m, maxBy cmpBySubtotal input.cart.lines = some m ∧
      cart_lines_discounts_generate_run input = Except.ok r ∧
      productDiscountsAddOp (discountPercentage input) m ∈ r.operations ∧
      ∀ f : CartLine → ℚ,
        (∀ l ∈ input.cart.lines, subtotalOf l = F64.finite (f l)) →
        (∀ l ∈ input.cart.lines, f l ≤ f m) ∧
        ∃ l1 l2, input.cart.lines = l1 ++ m :: l2 ∧ ∀ l ∈ l2, f l < f m := by
  obtain ⟨x, t, hls⟩ : ∃ x t, input.cart.lines = x :: t := by
    cases h : input.cart.lines with
    | nil => exact absurd h h1
    | cons a b => exact ⟨a, b, rfl⟩
  have hm : maxBy cmpBySubtotal input.cart.lines =
      some (t.foldl (fun acc y => if cmpBySubtotal acc y = Ordering.gt then acc else y) x) := by
    rw [hls]; rfl
  refine ⟨_, _, hm, run_spec input _ hm, ?_, ?_⟩
  · rw [h2]
    simp
  · intro f hf
    rw [hls] at hf
    obtain ⟨l1, l2, hdec, hmax, hstrict⟩ := fold_last_max f t x _ hf rfl
    refine ⟨?_, l1, l2, ?_, ?_⟩
    · rw [hls]; exact hmax
    · rw [hls]; exact hdec
    · exact hstrict

/-- Concrete input for the C7 witness: a tie between two lines. -/
def exInp7 : Input :=
  exInput [exLine "A" (F64.finite 5), exLine "B" (F64.finite 5)] [DiscountClass.product] none

/-- Witness for the amended C7 on the tie input. -/
theorem product_targets_last_max_witness :
    ∃ r m, maxBy cmpBySubtotal exInp7.cart.lines = some m ∧
      cart_lines_discounts_generate_run exInp7 = Except.ok r ∧
      productDiscountsAddOp (discountPercentage exInp7) m ∈ r.operations ∧
      ∀ f : CartLine → ℚ,
        (∀ l ∈ exInp7.cart.lines, subtotalOf l = F64.finite (f l)) →
        (∀ l ∈ exInp7.cart.lines, f l ≤ f m) ∧
        ∃ l1 l2, exInp7.cart.lines = l1 ++ m :: l2 ∧ ∀ l ∈ l2, f l < f m :=
  product_targets_last_max exInp7 (by decide) (by decide)
